import Mathlib

/-!
Verification of the water-quality dashboard repository (Streamlit app:
Home_page.py, 2_Manual_Input.py, 3_OrgUseData_Dashboard.py) against its
natural-language specification.

Shallow embedding conventions:
* Python floats are modelled as exact rationals.
* The five water-quality parameters are the enum below; the long CSV column
  names ("Chlorine (mg/L)" and so on) carry no logic and are elided.
* External effects (the Nominatim HTTP call, Streamlit widgets) are modelled
  as explicit inputs to the embedded functions.
-/

/-- Enumeration of the five water-quality parameters used throughout the app
(the dict keys of SAFE_RANGES in Home_page.py and of patterns in
2_Manual_Input.py). -/
inductive Param : Type
  | pH
  | Chlorine
  | Hardness
  | Nitrates
  | Lead
deriving DecidableEq, Repr

/-- Canonical label of a parameter, as used in the regex patterns of
parse_extracted_text in 2_Manual_Input.py. -/
def Param.label : Param → String
  | .pH => "pH"
  | .Chlorine => "Chlorine"
  | .Hardness => "Hardness"
  | .Nitrates => "Nitrates"
  | .Lead => "Lead"

/-- List of the five parameters in the fixed dict-insertion order used by both
source files. -/
def paramList : List Param := [.pH, .Chlorine, .Hardness, .Nitrates, .Lead]

/-- Embedding of SAFE_RANGES from Home_page.py (equally REGULATORY_STANDARDS in
3_OrgUseData_Dashboard.py): each parameter with its (min, max) safe range.
The prose description / health_impact strings carry no logic and are elided. -/
def SAFE_RANGES : List (Param × ℚ × ℚ) :=
  [(.pH, 6.5, 8.5), (.Chlorine, 0, 4), (.Hardness, 0, 120),
   (.Nitrates, 0, 10), (.Lead, 0, 15)]

/-- Embedding of is_within_safe_range from Home_page.py:
return min_val <= value <= max_val. -/
def is_within_safe_range (value min_val max_val : ℚ) : Bool :=
  decide (min_val ≤ value) && decide (value ≤ max_val)

/-- A fully populated persisted record as read back from the CSV by
Home_page.py: the Zipcode and Date columns plus one value per parameter.
The timestamp is modelled as a rational. -/
structure Row where
  zipcode : String
  date : ℚ
  pH : ℚ
  chlorine : ℚ
  hardness : ℚ
  nitrates : ℚ
  lead : ℚ
deriving DecidableEq, Repr

/-- Column access entry_data[param] of Home_page.py. -/
def paramValue (r : Row) : Param → ℚ
  | .pH => r.pH
  | .Chlorine => r.chlorine
  | .Hardness => r.hardness
  | .Nitrates => r.nitrates
  | .Lead => r.lead

/-- Embedding of the per-parameter evaluation loop of Home_page.py
(for param, details in SAFE_RANGES.items(): ... in_safe_range =
is_within_safe_range(current_value, safe_min, safe_max)): one
(parameter, value, in_range) triple per parameter, in the fixed dict order. -/
def evaluate_record (r : Row) : List (Param × ℚ × Bool) :=
  SAFE_RANGES.map (fun e => (e.1, paramValue r e.1,
    is_within_safe_range (paramValue r e.1) e.2.1 e.2.2))

/-- Aggregate predicate from the spec, section 4.5: is_fully_compliant holds
when every per-parameter status produced by the source evaluation loop is
in range.  Named spec_ because the aggregate is the spec's definition, folded
over the source's per-parameter checks. -/
def spec_is_fully_compliant (r : Row) : Bool :=
  (evaluate_record r).all (fun s => s.2.2)

/-- C4: for every parameter, the compliance check marks a value in_range
exactly when min <= value <= max with both bounds inclusive (pH 6.5 and 8.5
compliant, pH 9.0 not), the five fixed bands are pH [6.5, 8.5],
Chlorine [0, 4], Hardness [0, 120], Nitrates [0, 10], Lead [0, 15], and a
record is fully compliant exactly when all five values are in range. -/
theorem C4_bands_inclusive :
    (∀ v lo hi : ℚ, is_within_safe_range v lo hi = true ↔ lo ≤ v ∧ v ≤ hi)
    ∧ (∀ r : Row, evaluate_record r =
      [(Param.pH, r.pH, is_within_safe_range r.pH 6.5 8.5),
       (Param.Chlorine, r.chlorine, is_within_safe_range r.chlorine 0 4),
       (Param.Hardness, r.hardness, is_within_safe_range r.hardness 0 120),
       (Param.Nitrates, r.nitrates, is_within_safe_range r.nitrates 0 10),
       (Param.Lead, r.lead, is_within_safe_range r.lead 0 15)])
    ∧ is_within_safe_range 6.5 6.5 8.5 = true
    ∧ is_within_safe_range 8.5 6.5 8.5 = true
    ∧ is_within_safe_range 9 6.5 8.5 = false
    ∧ (∀ r : Row, spec_is_fully_compliant r = true ↔
        ((6.5:ℚ) ≤ r.pH ∧ r.pH ≤ 8.5) ∧ ((0:ℚ) ≤ r.chlorine ∧ r.chlorine ≤ 4)
        ∧ ((0:ℚ) ≤ r.hardness ∧ r.hardness ≤ 120)
        ∧ ((0:ℚ) ≤ r.nitrates ∧ r.nitrates ≤ 10)
        ∧ ((0:ℚ) ≤ r.lead ∧ r.lead ≤ 15)) := by
  refine ⟨?_, ?_, by norm_num [is_within_safe_range], by norm_num [is_within_safe_range],
    by norm_num [is_within_safe_range], ?_⟩
  · intro v lo hi
    simp [is_within_safe_range]
  · intro r
    rfl
  · intro r
    simp [spec_is_fully_compliant, evaluate_record, SAFE_RANGES, paramValue,
      is_within_safe_range]

/-- C7: compliance evaluation is a pure, deterministic function of the record
and the static band table: the status sequence lists the parameters in the
fixed order pH, Chlorine, Hardness, Nitrates, Lead, and two records with the
same five readings (regardless of zipcode or date) evaluate to identical
status sequences; evaluating the same record twice trivially agrees since the
embedded evaluator is a pure function. -/
theorem C7_evaluation_pure :
    (∀ r : Row, (evaluate_record r).map (fun s => s.1) = paramList)
    ∧ (∀ r₁ r₂ : Row, r₁.pH = r₂.pH → r₁.chlorine = r₂.chlorine →
        r₁.hardness = r₂.hardness → r₁.nitrates = r₂.nitrates →
        r₁.lead = r₂.lead → evaluate_record r₁ = evaluate_record r₂) := by
  constructor
  · intro r
    rfl
  · intro r₁ r₂ h1 h2 h3 h4 h5
    simp [evaluate_record, SAFE_RANGES, paramValue, h1, h2, h3, h4, h5]

/-- Witness for C7: two concrete records differing only in zipcode and date
evaluate identically. -/
theorem C7_evaluation_pure_witness :
    evaluate_record ⟨"95110", 0, 7, 1, 50, 5, 3⟩
      = evaluate_record ⟨"95999", 1, 7, 1, 50, 5, 3⟩ :=
  C7_evaluation_pure.2 ⟨"95110", 0, 7, 1, 50, 5, 3⟩ ⟨"95999", 1, 7, 1, 50, 5, 3⟩
    rfl rfl rfl rfl rfl


/-! ### ReadingParser: parse_extracted_text of 2_Manual_Input.py

The source applies, for each parameter in dict order, the case-insensitive
regex  label [:\s]* ([\d.]+)  via re.search (leftmost match), then converts
the captured group with float(), which raises an uncaught ValueError on a
non-convertible token such as "1.2.3".  Since the character class [:\s] is
disjoint from [\d.], the regex is equivalent to: at the leftmost position
where the label matches case-insensitively, skip every colon/whitespace
character, then capture the maximal run of digit/dot characters, requiring
it to be non-empty.  The \s and \d classes are modelled over ASCII. -/

/-- Character class of the regex fragment [:\s], modelling Python's colon or
whitespace over ASCII (space, tab, newline, carriage return, vertical tab,
form feed). -/
def isSpaceOrColon (c : Char) : Bool :=
  c = ':' || c = ' ' || c = '\t' || c = '\n' || c = '\r' || c = '\x0b' || c = '\x0c'

/-- Character class of the regex fragment [\d.] capturing the number,
modelled over ASCII. -/
def isDigitOrDot (c : Char) : Bool :=
  c.isDigit || c = '.'

/-- ASCII case folding (code point, with upper-case letters folded to lower
case), modelling re.IGNORECASE. -/
def foldCase (c : Char) : ℕ :=
  if 65 ≤ c.toNat && c.toNat ≤ 90 then c.toNat + 32 else c.toNat

/-- Case-insensitive literal match of the label at the head of the text;
returns the remaining text on success. -/
def stripLabelCI : List Char → List Char → Option (List Char)
  | [], cs => some cs
  | _ :: _, [] => none
  | l :: ls, c :: cs => if foldCase l = foldCase c then stripLabelCI ls cs else none

/-- Attempt of the whole pattern at one fixed position: the label
(case-insensitive), then any number of colon/whitespace characters, then a
non-empty maximal run of digit/dot characters, which is the captured
group. -/
def labelMatchAt (label : List Char) (cs : List Char) : Option (List Char) :=
  match stripLabelCI label cs with
  | none => none
  | some rest =>
    let tok := (rest.dropWhile isSpaceOrColon).takeWhile isDigitOrDot
    if tok = [] then none else some tok

/-- Embedding of re.search: try the pattern at position 0, then at each later
position in order, returning the captured group of the leftmost success. -/
def reSearch (label : List Char) : List Char → Option (List Char)
  | [] => labelMatchAt label []
  | c :: cs =>
    match labelMatchAt label (c :: cs) with
    | some tok => some tok
    | none => reSearch label cs

/-- Natural-number value of a run of decimal digits, most significant
first. -/
def natOfDigits (ds : List Char) : ℕ :=
  ds.foldl (fun n c => 10 * n + (c.toNat - '0'.toNat)) 0

/-- Embedding of Python's float() restricted to the strings the capture group
can produce (non-empty runs of digits and dots): it fails exactly when the
token has more than one dot or no digit at all (float of "." or of "1.2.3"
raises ValueError), and otherwise yields integer part plus decimal
fraction. -/
def pyFloatOfToken (tok : List Char) : Option ℚ :=
  if 1 < (tok.filter (fun c => c = '.')).length then none
  else if tok.all (fun c => !c.isDigit) then none
  else
    let ip := tok.takeWhile (fun c => c ≠ '.')
    let fp := (tok.dropWhile (fun c => c ≠ '.')).drop 1
    some ((natOfDigits ip : ℚ) + (natOfDigits fp : ℚ) / 10 ^ fp.length)

/-- Loop body of parse_extracted_text over the remaining parameters: for
each parameter in dict order, search its pattern; no match means the
parameter is skipped, a match whose captured token float() cannot convert
raises (modelled as Except.error), and otherwise the reading is added in
insertion order. -/
def parseParams : List Param → List Char → Except Unit (List (Param × ℚ))
  | [], _ => .ok []
  | p :: ps, cs =>
    match reSearch p.label.toList cs with
    | none => parseParams ps cs
    | some tok =>
      match pyFloatOfToken tok with
      | none => .error ()
      | some v =>
        match parseParams ps cs with
        | .error e => .error e
        | .ok rest => .ok ((p, v) :: rest)

/-- Embedding of parse_extracted_text of 2_Manual_Input.py: the readings
dict (as an insertion-ordered association list), or an uncaught ValueError
(Except.error) when some captured token is not float()-convertible. -/
def parse_extracted_text (text : String) : Except Unit (List (Param × ℚ)) :=
  parseParams paramList text.toList

/-- Numeric value of the character '7' as a digit, precomputed for the
evaluation lemmas. -/
theorem digitVal_seven : '7'.toNat - '0'.toNat = 7 := by decide

/-- Numeric value of the character '2' as a digit. -/
theorem digitVal_two : '2'.toNat - '0'.toNat = 2 := by decide

/-- Numeric value of the character '1' as a digit. -/
theorem digitVal_one : '1'.toNat - '0'.toNat = 1 := by decide

/-- Numeric value of the character '5' as a digit. -/
theorem digitVal_five : '5'.toNat - '0'.toNat = 5 := by decide

/-- Numeric value of the character '3' as a digit. -/
theorem digitVal_three : '3'.toNat - '0'.toNat = 3 := by decide

/-- Evaluation: float() of the captured token "7.2". -/
theorem pyFloat_72 : pyFloatOfToken ['7', '.', '2'] = some 7.2 := by
  simp +decide only [pyFloatOfToken, natOfDigits, List.takeWhile, List.dropWhile,
    List.foldl, List.tail, List.length, List.drop]
  norm_num [digitVal_seven, digitVal_two]

/-- Evaluation: float() of the captured token "1.5". -/
theorem pyFloat_15 : pyFloatOfToken ['1', '.', '5'] = some 1.5 := by
  simp +decide only [pyFloatOfToken, natOfDigits, List.takeWhile, List.dropWhile,
    List.foldl, List.tail, List.length, List.drop]
  norm_num [digitVal_one, digitVal_five]

/-- Evaluation: float() of the captured token "12.3". -/
theorem pyFloat_123 : pyFloatOfToken ['1', '2', '.', '3'] = some 12.3 := by
  simp +decide only [pyFloatOfToken, natOfDigits, List.takeWhile, List.dropWhile,
    List.foldl, List.tail, List.length, List.drop]
  norm_num [digitVal_one, digitVal_two, digitVal_three]

/-- Evaluation: float() of the captured token "7". -/
theorem pyFloat_7 : pyFloatOfToken ['7'] = some 7 := by
  simp +decide only [pyFloatOfToken, natOfDigits, List.takeWhile, List.dropWhile,
    List.foldl, List.tail, List.length, List.drop]
  norm_num [digitVal_seven]

/-- Leftmost-match characterization of the re.search embedding: a successful
search returns the capture of the first position, in document order, at which
the whole pattern matches, and the pattern fails at every earlier
position. -/
theorem reSearch_first_match (label : List Char) :
    ∀ cs tok, reSearch label cs = some tok →
      ∃ n, labelMatchAt label (List.drop n cs) = some tok
        ∧ ∀ m, m < n → labelMatchAt label (List.drop m cs) = none := by
  intro cs
  induction cs with
  | nil =>
    intro tok h
    rw [reSearch] at h
    exact ⟨0, h, fun m hm => absurd hm (Nat.not_lt_zero m)⟩
  | cons c cs ih =>
    intro tok h
    rw [reSearch] at h
    cases hm : labelMatchAt label (c :: cs) with
    | some t =>
      rw [hm] at h
      exact ⟨0, hm.trans h, fun m hmm => absurd hmm (Nat.not_lt_zero m)⟩
    | none =>
      rw [hm] at h
      obtain ⟨n, h1, h2⟩ := ih tok h
      refine ⟨n + 1, by simpa using h1, ?_⟩
      intro m hmlt
      cases m with
      | zero => simpa using hm
      | succ m' => simpa using h2 m' (by omega)

/-- C5: parse matches each parameter by a case-insensitive label pattern
tolerant of adjoining colon/whitespace followed by a decimal number, taking
the first match in document order and allowing trailing characters after the
number; the two documented examples evaluate as claimed, with the other
parameters omitted. -/
theorem C5_parse_examples_first_match :
    parse_extracted_text "pH: 7.2 Chlorine 1.5mg/L"
      = .ok [(Param.pH, 7.2), (Param.Chlorine, 1.5)]
    ∧ parse_extracted_text "pH12.3mg" = .ok [(Param.pH, 12.3)]
    ∧ (∀ label cs tok, reSearch label cs = some tok →
        ∃ n, labelMatchAt label (List.drop n cs) = some tok
          ∧ ∀ m, m < n → labelMatchAt label (List.drop m cs) = none) := by
  refine ⟨?_, ?_, reSearch_first_match⟩
  · have h1 : reSearch "pH".toList "pH: 7.2 Chlorine 1.5mg/L".toList
        = some ['7', '.', '2'] := by decide
    have h2 : reSearch "Chlorine".toList "pH: 7.2 Chlorine 1.5mg/L".toList
        = some ['1', '.', '5'] := by decide
    have h3 : reSearch "Hardness".toList "pH: 7.2 Chlorine 1.5mg/L".toList = none := by decide
    have h4 : reSearch "Nitrates".toList "pH: 7.2 Chlorine 1.5mg/L".toList = none := by decide
    have h5 : reSearch "Lead".toList "pH: 7.2 Chlorine 1.5mg/L".toList = none := by decide
    simp only [parse_extracted_text, paramList, parseParams, Param.label,
      h1, h2, h3, h4, h5, pyFloat_72, pyFloat_15]
  · have h1 : reSearch "pH".toList "pH12.3mg".toList = some ['1', '2', '.', '3'] := by decide
    have h2 : reSearch "Chlorine".toList "pH12.3mg".toList = none := by decide
    have h3 : reSearch "Hardness".toList "pH12.3mg".toList = none := by decide
    have h4 : reSearch "Nitrates".toList "pH12.3mg".toList = none := by decide
    have h5 : reSearch "Lead".toList "pH12.3mg".toList = none := by decide
    simp only [parse_extracted_text, paramList, parseParams, Param.label,
      h1, h2, h3, h4, h5, pyFloat_123]

/-- Witness for C5: on the text "Ph is pH 7" the pattern for pH fails at the
positions before the second occurrence (the first "Ph" is not followed by a
number) and captures "7" at the leftmost matching position. -/
theorem C5_parse_examples_first_match_witness :
    ∃ n, labelMatchAt "pH".toList (List.drop n "Ph is pH 7".toList) = some ['7']
      ∧ ∀ m, m < n → labelMatchAt "pH".toList (List.drop m "Ph is pH 7".toList) = none :=
  C5_parse_examples_first_match.2.2 "pH".toList "Ph is pH 7".toList ['7'] (by decide)

/-- Totality of the parsing loop when every captured token converts: if for
each parameter any successful search yields a float()-convertible token, the
loop returns a readings list rather than raising. -/
theorem parseParams_total (cs : List Char) :
    ∀ ps : List Param, (∀ p ∈ ps, ∀ tok, reSearch p.label.toList cs = some tok →
      pyFloatOfToken tok ≠ none) → ∃ rs, parseParams ps cs = .ok rs := by
  intro ps
  induction ps with
  | nil => intro _; exact ⟨[], rfl⟩
  | cons q qs ih =>
    intro h
    obtain ⟨rs, hrs⟩ := ih (fun p hp => h p (List.mem_cons_of_mem q hp))
    cases hq : reSearch q.label.toList cs with
    | none => exact ⟨rs, by simp only [parseParams, hq, hrs]⟩
    | some tok =>
      cases hf : pyFloatOfToken tok with
      | none => exact absurd hf (h q (List.mem_cons_self q qs) tok hq)
      | some v => exact ⟨(q, v) :: rs, by simp only [parseParams, hq, hf, hrs]⟩

/-- Omission: a parameter whose pattern finds no match anywhere in the text
never appears in a successfully returned readings list. -/
theorem parseParams_not_mem (cs : List Char) (p : Param)
    (hnone : reSearch p.label.toList cs = none) :
    ∀ ps rs, parseParams ps cs = .ok rs → ∀ v, (p, v) ∉ rs := by
  intro ps
  induction ps with
  | nil =>
    intro rs h v
    rw [parseParams] at h
    cases h
    simp
  | cons q qs ih =>
    intro rs h v hv
    rw [parseParams] at h
    cases hq : reSearch q.label.toList cs with
    | none =>
      simp only [hq] at h
      exact ih rs h v hv
    | some tok =>
      simp only [hq] at h
      cases hf : pyFloatOfToken tok with
      | none =>
        simp only [hf] at h
        exact Except.noConfusion h
      | some w =>
        simp only [hf] at h
        cases hrest : parseParams qs cs with
        | error e =>
          simp only [hrest] at h
          exact Except.noConfusion h
        | ok rest =>
          simp only [hrest, Except.ok.injEq] at h
          subst h
          rcases List.mem_cons.mp hv with h1 | h1
          · have hp : p = q := congrArg Prod.fst h1
            rw [hp, hq] at hnone
            cases hnone
          · exact ih rest hrest v h1

/-- Evaluation helper: parsing the text "pH 7" yields exactly the pH
reading 7. -/
theorem parse_pH7 : parse_extracted_text "pH 7" = .ok [(Param.pH, 7)] := by
  have h1 : reSearch "pH".toList "pH 7".toList = some ['7'] := by decide
  have h2 : reSearch "Chlorine".toList "pH 7".toList = none := by decide
  have h3 : reSearch "Hardness".toList "pH 7".toList = none := by decide
  have h4 : reSearch "Nitrates".toList "pH 7".toList = none := by decide
  have h5 : reSearch "Lead".toList "pH 7".toList = none := by decide
  simp only [parse_extracted_text, paramList, parseParams, Param.label,
    h1, h2, h3, h4, h5, pyFloat_7]

/-- C6 counterexample: the claim that parse never raises is false as stated.
On the input "pH 1.2.3" the pattern captures the token "1.2.3", which
float() cannot convert, and the source propagates the ValueError instead of
omitting the parameter (the float call at line 89 of 2_Manual_Input.py is
not guarded by try/except). -/
theorem C6_parse_raises_counterexample :
    parse_extracted_text "pH 1.2.3" = Except.error () := rfl

/-- C6 as amended: parse raises no error when every captured token is
float()-convertible (in particular a parameter whose label is absent is
simply omitted from the returned mapping), and parse of the empty string
returns the empty mapping; but a match whose captured token is not
float()-convertible raises an uncaught ValueError rather than being
omitted. -/
theorem C6_parse_total_amended :
    parse_extracted_text "" = .ok []
    ∧ (∀ text : String, (∀ (p : Param) (tok : List Char),
        reSearch p.label.toList text.toList = some tok → pyFloatOfToken tok ≠ none) →
        ∃ readings, parse_extracted_text text = .ok readings)
    ∧ (∀ (text : String) (readings : List (Param × ℚ)) (p : Param),
        parse_extracted_text text = .ok readings →
        reSearch p.label.toList text.toList = none → ∀ v, (p, v) ∉ readings) := by
  refine ⟨rfl, ?_, ?_⟩
  · intro text h
    exact parseParams_total text.toList paramList (fun p _ tok => h p tok)
  · intro text readings p hok hnone v
    exact parseParams_not_mem text.toList p hnone paramList readings hok v

/-- Witness for C6: on the text "pH 7" every captured token converts, so
parsing succeeds, and Chlorine (whose label is absent) is not among the
returned readings of that text. -/
theorem C6_parse_total_amended_witness :
    (∃ readings, parse_extracted_text "pH 7" = .ok readings)
    ∧ (∀ v, (Param.Chlorine, v) ∉ [(Param.pH, (7:ℚ))]) := by
  constructor
  · refine C6_parse_total_amended.2.1 "pH 7" ?_
    intro p tok h
    cases p
    case pH =>
      simp only [Param.label] at h
      rw [show reSearch "pH".toList "pH 7".toList = some ['7'] from by decide] at h
      cases h
      rw [pyFloat_7]
      simp
    case Chlorine =>
      simp only [Param.label] at h
      rw [show reSearch "Chlorine".toList "pH 7".toList = none from by decide] at h
      cases h
    case Hardness =>
      simp only [Param.label] at h
      rw [show reSearch "Hardness".toList "pH 7".toList = none from by decide] at h
      cases h
    case Nitrates =>
      simp only [Param.label] at h
      rw [show reSearch "Nitrates".toList "pH 7".toList = none from by decide] at h
      cases h
    case Lead =>
      simp only [Param.label] at h
      rw [show reSearch "Lead".toList "pH 7".toList = none from by decide] at h
      cases h
  · exact C6_parse_total_amended.2.2 "pH 7" [(Param.pH, 7)] Param.Chlorine parse_pH7
      (by decide)

/-- Non-negativity of float() on captured tokens: the numeric pattern admits
no sign, so every converted value is a sum of a natural part and a
non-negative decimal fraction. -/
theorem pyFloatOfToken_nonneg (tok : List Char) (v : ℚ)
    (h : pyFloatOfToken tok = some v) : 0 ≤ v := by
  unfold pyFloatOfToken at h
  split at h
  · cases h
  split at h
  · cases h
  simp only [Option.some.injEq] at h
  rw [← h]
  positivity

/-- Non-negativity of every reading produced by the parsing loop. -/
theorem parseParams_nonneg :
    ∀ (ps : List Param) (cs : List Char) (rs : List (Param × ℚ)),
      parseParams ps cs = .ok rs → ∀ p v, (p, v) ∈ rs → 0 ≤ v := by
  intro ps
  induction ps with
  | nil =>
    intro cs rs h p v hv
    rw [parseParams] at h
    cases h
    simp at hv
  | cons q qs ih =>
    intro cs rs h p v hv
    rw [parseParams] at h
    cases hq : reSearch q.label.toList cs with
    | none =>
      simp only [hq] at h
      exact ih cs rs h p v hv
    | some tok =>
      simp only [hq] at h
      cases hf : pyFloatOfToken tok with
      | none =>
        simp only [hf] at h
        exact Except.noConfusion h
      | some w =>
        simp only [hf] at h
        cases hrest : parseParams qs cs with
        | error e =>
          simp only [hrest] at h
          exact Except.noConfusion h
        | ok rest =>
          simp only [hrest, Except.ok.injEq] at h
          subst h
          rcases List.mem_cons.mp hv with h1 | h1
          · have hw : v = w := congrArg Prod.snd h1
            rw [hw]
            exact pyFloatOfToken_nonneg tok w hf
          · exact ih cs rest hrest p v h1

/-- Model of the Streamlit number_input widget used for manual entry in
2_Manual_Input.py: the widget only ever yields a value inside
[min_value, max_value], modelled by clamping the attempted value. -/
def number_input (min_value max_value val : ℚ) : ℚ :=
  max min_value (min max_value val)

/-- Embedding of the manual-input readings dict of 2_Manual_Input.py: five
mandatory number_input fields, each with min_value 0.0 and the source's
per-parameter max_value. -/
def manual_readings (inputs : Param → ℚ) : List (Param × ℚ) :=
  [(.pH, number_input 0 14 (inputs .pH)),
   (.Chlorine, number_input 0 10 (inputs .Chlorine)),
   (.Hardness, number_input 0 500 (inputs .Hardness)),
   (.Nitrates, number_input 0 50 (inputs .Nitrates)),
   (.Lead, number_input 0 100 (inputs .Lead))]

/-- C8: every reading entering validation is non-negative: every value in a
successfully parsed readings mapping is non-negative (the numeric pattern
admits no sign), and every manually entered value is constrained to be
non-negative by the widget bounds. -/
theorem C8_readings_nonneg :
    (∀ (text : String) (readings : List (Param × ℚ)) (p : Param) (v : ℚ),
      parse_extracted_text text = .ok readings → (p, v) ∈ readings → 0 ≤ v)
    ∧ (∀ (inputs : Param → ℚ) (p : Param) (v : ℚ),
      (p, v) ∈ manual_readings inputs → 0 ≤ v) := by
  constructor
  · intro text readings p v hok hv
    exact parseParams_nonneg paramList text.toList readings hok p v hv
  · intro inputs p v hv
    simp only [manual_readings, List.mem_cons, List.not_mem_nil, or_false] at hv
    rcases hv with h | h | h | h | h <;>
      · rw [show v = (Prod.snd (α := Param) _) from congrArg Prod.snd h]
        exact le_max_left _ _

/-- Witness for C8: the parsed reading of "pH 7" and a concrete manual pH
entry are both non-negative. -/
theorem C8_readings_nonneg_witness :
    (0:ℚ) ≤ 7 ∧ (0:ℚ) ≤ number_input 0 14 5 :=
  ⟨C8_readings_nonneg.1 "pH 7" [(Param.pH, 7)] Param.pH 7 parse_pH7 (by simp),
   C8_readings_nonneg.2 (fun _ => 5) Param.pH (number_input 0 14 5) (by simp [manual_readings])⟩

/-! ### GeoResolver: get_nearest_zipcode and get_zipcode_from_coordinates
of 2_Manual_Input.py

The source computes geopy's geodesic(p, coord).miles for each fallback
entry and keeps the strictly closer one (so the first-encountered entry
wins ties).  The distance function is a parameter of the embedding; the
concrete instantiation gcDist below is the great-circle central angle on
the sphere, which is the distance notion named by the spec and the claim
("great-circle (geodesic) distance").  Converting the central angle to
miles is a strictly monotone rescaling, so every comparison performed by
the fold is unaffected by the choice of unit. -/

/-- Embedding of known_zipcode_coords of 2_Manual_Input.py: the hardcoded
fallback table of San Jose zip codes with their (latitude, longitude)
centroids, in source (dict-insertion) order. -/
def known_zipcode_coords : List (String × ℚ × ℚ) :=
  [("95110", 37.3422, -121.8996),
   ("95112", 37.3535, -121.8865),
   ("95113", 37.3333, -121.8907),
   ("95116", 37.3496, -121.8569),
   ("95117", 37.3126, -121.9502),
   ("95118", 37.2505, -121.8891),
   ("95120", 37.2060, -121.8133)]

/-- Loop of get_nearest_zipcode: min_distance starts at infinity (modelled
by the none accumulator) and an entry replaces the running minimum only when
strictly closer, so distance ties keep the first-encountered entry. -/
def nearestFold {α : Type} [LinearOrder α] (d : ℚ × ℚ → ℚ × ℚ → α) (p : ℚ × ℚ)
    (table : List (String × ℚ × ℚ)) : Option (α × String) :=
  table.foldl (fun acc e =>
    match acc with
    | none => some (d p e.2, e.1)
    | some (m, z) => if d p e.2 < m then some (d p e.2, e.1) else some (m, z)) none

/-- Embedding of get_nearest_zipcode of 2_Manual_Input.py, parametrized by
the distance function (the source fixes it to geodesic miles): the zipcode
of the strictly closest fallback entry, none only when the table is
empty. -/
def get_nearest_zipcode {α : Type} [LinearOrder α] (d : ℚ × ℚ → ℚ × ℚ → α)
    (lat lon : ℚ) : Option String :=
  (nearestFold d (lat, lon) known_zipcode_coords).map Prod.snd

/-- Outcome of the Nominatim reverse-geocode request in
get_zipcode_from_coordinates: failure covers every requests.RequestException
(connection error, timeout, non-success status raised by raise_for_status,
and JSON decoding errors, which subclass RequestException in current
requests); success carries the address postcode field when present in the
response. -/
inductive NetOutcome : Type
  | failure : NetOutcome
  | success : Option String → NetOutcome

/-- Embedding of get_zipcode_from_coordinates of 2_Manual_Input.py: on a
successful response whose address contains a postcode, return that postcode
string; otherwise (missing field, or any caught request exception, the
latter additionally emitting the non-fatal st.warning) fall back to the
nearest known zipcode. -/
def get_zipcode_from_coordinates {α : Type} [LinearOrder α]
    (d : ℚ × ℚ → ℚ × ℚ → α) (net : NetOutcome) (lat lon : ℚ) : Option String :=
  match net with
  | .success (some pc) => some pc
  | .success none => get_nearest_zipcode d lat lon
  | .failure => get_nearest_zipcode d lat lon

/-- Failure modes of the remote call after which the source takes the
fallback path: a raised request exception, or a well-formed response with no
postcode field. -/
def remoteFailed : NetOutcome → Bool
  | .success (some _) => false
  | .success none => true
  | .failure => true

/-- Modelling of the call-site configuration of the reverse-geocode request
(2_Manual_Input.py line 47): requests.get(url) is invoked with no timeout
keyword, so the timeout parameter of the HTTP library is left at its default
of None, meaning no bound at all. -/
def geocode_request_timeout : Option ℚ := none

/-- Degrees to radians. -/
noncomputable def radOfDeg (q : ℚ) : ℝ := (q : ℝ) * Real.pi / 180

/-- Cosine of the central angle between two (latitude, longitude) points
given in degrees, by the spherical law of cosines. -/
noncomputable def gcCos (p q : ℚ × ℚ) : ℝ :=
  Real.sin (radOfDeg p.1) * Real.sin (radOfDeg q.1)
    + Real.cos (radOfDeg p.1) * Real.cos (radOfDeg q.1) * Real.cos (radOfDeg (p.2 - q.2))

/-- Great-circle distance between two (latitude, longitude) points in
degrees: the central angle on the unit sphere.  This is the distance the
fold is instantiated with; geopy's geodesic miles differ from it only by the
Earth-radius scaling and a sub-percent ellipsoidal correction, neither of
which affects the factor-of-two separated comparisons proved below. -/
noncomputable def gcDist (p q : ℚ × ℚ) : ℝ := Real.arccos (gcCos p q)

/-- Haversine of an angle: the squared sine of the half angle. -/
noncomputable def hav (x : ℝ) : ℝ := Real.sin (x / 2) ^ 2

/-- Squared chord length between the two points of gcCos, in haversine
form. -/
noncomputable def chordSq (p q : ℚ × ℚ) : ℝ :=
  4 * hav (radOfDeg (p.1 - q.1))
    + 4 * Real.cos (radOfDeg p.1) * Real.cos (radOfDeg q.1) * hav (radOfDeg (p.2 - q.2))

/-- Linearity of degree-to-radian conversion under subtraction. -/
theorem radOfDeg_sub (a b : ℚ) : radOfDeg (a - b) = radOfDeg a - radOfDeg b := by
  unfold radOfDeg
  push_cast
  ring

/-- Degree-to-radian conversion of a negated angle. -/
theorem radOfDeg_neg (q : ℚ) : radOfDeg (-q) = -radOfDeg q := by
  unfold radOfDeg
  push_cast
  ring

/-- Haversine of a negated angle. -/
theorem hav_neg (x : ℝ) : hav (-x) = hav x := by
  unfold hav
  rw [neg_div, Real.sin_neg]
  ring

/-- Haversine is non-negative. -/
theorem hav_nonneg (x : ℝ) : 0 ≤ hav x := sq_nonneg _

/-- Half-angle form of the cosine. -/
theorem cos_eq_one_sub_two_hav (x : ℝ) : Real.cos x = 1 - 2 * hav x := by
  have h := Real.cos_two_mul (x / 2)
  rw [show 2 * (x / 2) = x by ring] at h
  rw [h, Real.cos_sq' (x / 2)]
  unfold hav
  ring

/-- The spherical law of cosines in haversine form: the cosine of the
central angle is one minus half the squared chord. -/
theorem gcCos_eq (p q : ℚ × ℚ) : gcCos p q = 1 - chordSq p q / 2 := by
  unfold gcCos chordSq
  rw [radOfDeg_sub p.1 q.1]
  have h1 := cos_eq_one_sub_two_hav (radOfDeg p.1 - radOfDeg q.1)
  have h2 := cos_eq_one_sub_two_hav (radOfDeg (p.2 - q.2))
  have h3 := Real.cos_sub (radOfDeg p.1) (radOfDeg q.1)
  linear_combination Real.cos (radOfDeg p.1) * Real.cos (radOfDeg q.1) * h2 + h1 - h3

/-- Rational two-sided enclosure of the radian value of a non-negative
number of degrees, from the Mathlib decimal bounds on pi. -/
theorem radOfDeg_bounds (q : ℚ) (hq : 0 ≤ q) :
    (q : ℝ) * 3.141592 / 180 ≤ radOfDeg q ∧ radOfDeg q ≤ (q : ℝ) * 3.141593 / 180 := by
  unfold radOfDeg
  have h1 := Real.pi_gt_d6
  have h2 := Real.pi_lt_d6
  have hq' : (0 : ℝ) ≤ (q : ℝ) := by exact_mod_cast hq
  constructor <;> nlinarith

/-- Upper haversine bound from the sine-below-argument estimate. -/
theorem hav_ub (x hi : ℝ) (h0 : 0 ≤ x) (hx : x ≤ hi) (hhi : hi ≤ 1) :
    hav x ≤ (hi / 2) ^ 2 := by
  unfold hav
  have hs1 : Real.sin (x / 2) ≤ x / 2 := by
    rcases eq_or_lt_of_le h0 with h | h
    · rw [← h]
      simp
    · exact le_of_lt (Real.sin_lt (by linarith))
  have hs0 : 0 ≤ Real.sin (x / 2) :=
    Real.sin_nonneg_of_nonneg_of_le_pi (by linarith)
      (by nlinarith [Real.pi_gt_three])
  nlinarith

/-- Lower haversine bound, with a relative loss of at most two per mille,
from the cubic sine estimate; valid for small angles. -/
theorem hav_lb (x lo : ℝ) (h0 : 0 < lo) (hlo : lo ≤ x) (hx : x ≤ 0.01) :
    0.998 * (lo / 2) ^ 2 ≤ hav x := by
  unfold hav
  have h1 : x / 2 - (x / 2) ^ 3 / 4 < Real.sin (x / 2) :=
    Real.sin_gt_sub_cube (by linarith) (by linarith)
  have hx2 : (x / 2) ^ 2 ≤ 0.000025 := by nlinarith
  have h2 : (0.999 : ℝ) * (lo / 2) ≤ Real.sin (x / 2) := by nlinarith
  have h3 : (0 : ℝ) ≤ 0.999 * (lo / 2) := by nlinarith
  nlinarith [sq_nonneg (Real.sin (x / 2) - 0.999 * (lo / 2))]

/-- Cosine of a latitude between 0 and 90 degrees is non-negative. -/
theorem cos_radOfDeg_nonneg (q : ℚ) (h0 : 0 ≤ q) (h90 : q ≤ 90) :
    0 ≤ Real.cos (radOfDeg q) := by
  obtain ⟨hlo, hhi⟩ := radOfDeg_bounds q h0
  have hq0 : (0 : ℝ) ≤ (q : ℝ) := by exact_mod_cast h0
  have hq90 : (q : ℝ) ≤ 90 := by exact_mod_cast h90
  apply Real.cos_nonneg_of_mem_Icc
  constructor
  · nlinarith [Real.pi_gt_three]
  · unfold radOfDeg
    nlinarith [Real.pi_pos]

/-- Lower cosine bound for latitudes up to 37.355 degrees, from the Mathlib
quartic cosine estimate. -/
theorem cos_radOfDeg_lb (q : ℚ) (h0 : 0 ≤ q) (h2 : q ≤ 37.355) :
    (0.7779 : ℝ) ≤ Real.cos (radOfDeg q) := by
  obtain ⟨hlo, hhi⟩ := radOfDeg_bounds q h0
  have hq0 : (0 : ℝ) ≤ (q : ℝ) := by exact_mod_cast h0
  have hq2 : (q : ℝ) ≤ 37.355 := by
    rw [show (37.355 : ℝ) = ((37.355 : ℚ) : ℝ) by norm_num]
    exact_mod_cast h2
  have hx0 : 0 ≤ radOfDeg q := by nlinarith
  have hx1 : radOfDeg q ≤ 0.652 := by nlinarith
  have hb := Real.cos_bound (x := radOfDeg q) (by rw [abs_of_nonneg hx0]; linarith)
  rw [abs_of_nonneg hx0] at hb
  have hball := abs_le.mp hb
  have hsq : radOfDeg q ^ 2 ≤ 0.652 ^ 2 := by nlinarith
  have h4 : radOfDeg q ^ 4 ≤ 0.652 ^ 4 := by nlinarith
  nlinarith [hball.1]

/-- Casting monotonicity helper for rational hypotheses. -/
theorem ratCast_le_of_le {a b : ℚ} (h : a ≤ b) : (a : ℝ) ≤ (b : ℝ) := by
  exact_mod_cast h

/-- Upper enclosure of the squared chord from the absolute coordinate
differences, using only that the cosine product is at most one. -/
theorem chordSq_ub (p q : ℚ × ℚ) (a b : ℚ)
    (hpa : p.1 - q.1 = a ∨ p.1 - q.1 = -a) (hpb : p.2 - q.2 = b ∨ p.2 - q.2 = -b)
    (ha0 : 0 ≤ a) (hb0 : 0 ≤ b) (ha1 : a ≤ 1) (hb1 : b ≤ 1) :
    chordSq p q ≤ ((a : ℝ) * 3.141593 / 180) ^ 2 + ((b : ℝ) * 3.141593 / 180) ^ 2 := by
  unfold chordSq
  have e1 : hav (radOfDeg (p.1 - q.1)) = hav (radOfDeg a) := by
    rcases hpa with h | h
    · rw [h]
    · rw [h, radOfDeg_neg, hav_neg]
  have e2 : hav (radOfDeg (p.2 - q.2)) = hav (radOfDeg b) := by
    rcases hpb with h | h
    · rw [h]
    · rw [h, radOfDeg_neg, hav_neg]
  rw [e1, e2]
  obtain ⟨hla, hha⟩ := radOfDeg_bounds a ha0
  obtain ⟨hlb, hhb⟩ := radOfDeg_bounds b hb0
  have ha0' : (0 : ℝ) ≤ (a : ℝ) := by exact_mod_cast ha0
  have hb0' : (0 : ℝ) ≤ (b : ℝ) := by exact_mod_cast hb0
  have ha1' : (a : ℝ) ≤ 1 := by exact_mod_cast ha1
  have hb1' : (b : ℝ) ≤ 1 := by exact_mod_cast hb1
  have hub1 : hav (radOfDeg a) ≤ (((a : ℝ) * 3.141593 / 180) / 2) ^ 2 :=
    hav_ub _ _ (by nlinarith) hha (by nlinarith)
  have hub2 : hav (radOfDeg b) ≤ (((b : ℝ) * 3.141593 / 180) / 2) ^ 2 :=
    hav_ub _ _ (by nlinarith) hhb (by nlinarith)
  have hc1 : Real.cos (radOfDeg p.1) * Real.cos (radOfDeg q.1) ≤ 1 := by
    nlinarith [Real.cos_le_one (radOfDeg p.1), Real.cos_le_one (radOfDeg q.1),
      Real.neg_one_le_cos (radOfDeg p.1), Real.neg_one_le_cos (radOfDeg q.1)]
  nlinarith [hub1, hub2,
    mul_nonneg (sub_nonneg.mpr hc1) (hav_nonneg (radOfDeg b))]

/-- Lower enclosure of the squared chord from the latitude difference alone,
valid when both cosines are non-negative. -/
theorem chordSq_lb_lat (p q : ℚ × ℚ) (a : ℚ)
    (hpa : p.1 - q.1 = a ∨ p.1 - q.1 = -a) (ha0 : 0 < a) (ha1 : a ≤ 0.5)
    (hcp : 0 ≤ Real.cos (radOfDeg p.1)) (hcq : 0 ≤ Real.cos (radOfDeg q.1)) :
    0.998 * ((a : ℝ) * 3.141592 / 180) ^ 2 ≤ chordSq p q := by
  unfold chordSq
  have e1 : hav (radOfDeg (p.1 - q.1)) = hav (radOfDeg a) := by
    rcases hpa with h | h
    · rw [h]
    · rw [h, radOfDeg_neg, hav_neg]
  rw [e1]
  obtain ⟨hla, hha⟩ := radOfDeg_bounds a (le_of_lt ha0)
  have ha0' : (0 : ℝ) < (a : ℝ) := by exact_mod_cast ha0
  have ha1' : (a : ℝ) ≤ ((0.5 : ℚ) : ℝ) := ratCast_le_of_le ha1
  have hcast : ((0.5 : ℚ) : ℝ) = 0.5 := by norm_num
  rw [hcast] at ha1'
  have hlow : 0.998 * (((a : ℝ) * 3.141592 / 180) / 2) ^ 2 ≤ hav (radOfDeg a) :=
    hav_lb _ _ (by nlinarith) hla (by nlinarith)
  nlinarith [hlow,
    mul_nonneg (mul_nonneg hcp hcq) (hav_nonneg (radOfDeg (p.2 - q.2)))]

/-- Lower enclosure of the squared chord from both coordinate differences,
given a lower bound on the cosine product. -/
theorem chordSq_lb_latlon (p q : ℚ × ℚ) (a b : ℚ)
    (hpa : p.1 - q.1 = a ∨ p.1 - q.1 = -a) (hpb : p.2 - q.2 = b ∨ p.2 - q.2 = -b)
    (ha0 : 0 < a) (ha1 : a ≤ 0.5) (hb0 : 0 < b) (hb1 : b ≤ 0.5)
    (hcc : (0.605 : ℝ) ≤ Real.cos (radOfDeg p.1) * Real.cos (radOfDeg q.1)) :
    0.998 * ((a : ℝ) * 3.141592 / 180) ^ 2
      + 0.605 * (0.998 * ((b : ℝ) * 3.141592 / 180) ^ 2) ≤ chordSq p q := by
  unfold chordSq
  have e1 : hav (radOfDeg (p.1 - q.1)) = hav (radOfDeg a) := by
    rcases hpa with h | h
    · rw [h]
    · rw [h, radOfDeg_neg, hav_neg]
  have e2 : hav (radOfDeg (p.2 - q.2)) = hav (radOfDeg b) := by
    rcases hpb with h | h
    · rw [h]
    · rw [h, radOfDeg_neg, hav_neg]
  rw [e1, e2]
  obtain ⟨hla, hha⟩ := radOfDeg_bounds a (le_of_lt ha0)
  obtain ⟨hlb, hhb⟩ := radOfDeg_bounds b (le_of_lt hb0)
  have ha0' : (0 : ℝ) < (a : ℝ) := by exact_mod_cast ha0
  have hb0' : (0 : ℝ) < (b : ℝ) := by exact_mod_cast hb0
  have hcast : ((0.5 : ℚ) : ℝ) = 0.5 := by norm_num
  have ha1' : (a : ℝ) ≤ 0.5 := hcast ▸ ratCast_le_of_le ha1
  have hb1' : (b : ℝ) ≤ 0.5 := hcast ▸ ratCast_le_of_le hb1
  have hlowa : 0.998 * (((a : ℝ) * 3.141592 / 180) / 2) ^ 2 ≤ hav (radOfDeg a) :=
    hav_lb _ _ (by nlinarith) hla (by nlinarith)
  have hlowb : 0.998 * (((b : ℝ) * 3.141592 / 180) / 2) ^ 2 ≤ hav (radOfDeg b) :=
    hav_lb _ _ (by nlinarith) hlb (by nlinarith)
  have hcc0 : (0 : ℝ) ≤ Real.cos (radOfDeg p.1) * Real.cos (radOfDeg q.1) :=
    le_trans (by norm_num) hcc
  have hprod : (0.605 : ℝ) * (0.998 * (((b : ℝ) * 3.141592 / 180) / 2) ^ 2)
      ≤ Real.cos (radOfDeg p.1) * Real.cos (radOfDeg q.1) * hav (radOfDeg b) :=
    mul_le_mul hcc hlowb (by positivity) hcc0
  nlinarith [hlowa, hprod]

/-- Non-negativity of the squared chord when both cosines are
non-negative. -/
theorem chordSq_nonneg_of (p q : ℚ × ℚ) (hcp : 0 ≤ Real.cos (radOfDeg p.1))
    (hcq : 0 ≤ Real.cos (radOfDeg q.1)) : 0 ≤ chordSq p q := by
  unfold chordSq
  nlinarith [hav_nonneg (radOfDeg (p.1 - q.1)),
    mul_nonneg (mul_nonneg hcp hcq) (hav_nonneg (radOfDeg (p.2 - q.2)))]

/-- Strictly smaller squared chord means strictly smaller great-circle
distance, by antitonicity of arccos on the range of the central-angle
cosine. -/
theorem gcDist_lt_of_chordSq (p a b : ℚ × ℚ) (hlt : chordSq p a < chordSq p b)
    (h0 : 0 ≤ chordSq p a) (h4 : chordSq p b ≤ 4) : gcDist p a < gcDist p b := by
  unfold gcDist
  have ea := gcCos_eq p a
  have eb := gcCos_eq p b
  have hmemb : gcCos p b ∈ Set.Icc (-1 : ℝ) 1 := by
    rw [eb]
    constructor <;> [nlinarith; nlinarith]
  have hmema : gcCos p a ∈ Set.Icc (-1 : ℝ) 1 := by
    rw [ea]
    constructor <;> [nlinarith; nlinarith]
  have hlt2 : gcCos p b < gcCos p a := by
    rw [ea, eb]
    linarith
  exact Real.strictAntiOn_arccos hmemb hmema hlt2

/-- Upper bound on the squared chord from the claim's point (37.35, -121.90)
to the 95110 centroid, the closest table entry. -/
theorem cs110_ub : chordSq (37.35, -121.90) (37.3422, -121.8996) ≤ 1.86e-8 := by
  have h := chordSq_ub (37.35, -121.90) (37.3422, -121.8996) 0.0078 0.0004
    (Or.inl (by norm_num)) (Or.inr (by norm_num))
    (by norm_num) (by norm_num) (by norm_num) (by norm_num)
  refine le_trans h ?_
  push_cast
  norm_num

/-- Non-negativity of the squared chord to the 95110 centroid. -/
theorem cs110_nonneg : 0 ≤ chordSq (37.35, -121.90) (37.3422, -121.8996) :=
  chordSq_nonneg_of _ _ (cos_radOfDeg_nonneg 37.35 (by norm_num) (by norm_num))
    (cos_radOfDeg_nonneg 37.3422 (by norm_num) (by norm_num))

/-- The 95110 centroid is strictly closer to (37.35, -121.90) than the 95112
centroid. -/
theorem d110_lt_d112 : gcDist (37.35, -121.90) (37.3422, -121.8996)
    < gcDist (37.35, -121.90) (37.3535, -121.8865) := by
  have hcc : (0.605 : ℝ) ≤ Real.cos (radOfDeg 37.35) * Real.cos (radOfDeg 37.3535) := by
    have h1 := cos_radOfDeg_lb 37.35 (by norm_num) (by norm_num)
    have h2 := cos_radOfDeg_lb 37.3535 (by norm_num) (by norm_num)
    nlinarith
  have hlb := chordSq_lb_latlon (37.35, -121.90) (37.3535, -121.8865) 0.0035 0.0135
    (Or.inr (by norm_num)) (Or.inr (by norm_num))
    (by norm_num) (by norm_num) (by norm_num) (by norm_num) hcc
  have h4 := chordSq_ub (37.35, -121.90) (37.3535, -121.8865) 0.0035 0.0135
    (Or.inr (by norm_num)) (Or.inr (by norm_num))
    (by norm_num) (by norm_num) (by norm_num) (by norm_num)
  apply gcDist_lt_of_chordSq
  · refine lt_of_le_of_lt cs110_ub (lt_of_lt_of_le ?_ hlb)
    push_cast
    norm_num
  · exact cs110_nonneg
  · refine le_trans h4 ?_
    push_cast
    norm_num

/-- The 95110 centroid is strictly closer to (37.35, -121.90) than the 95113
centroid. -/
theorem d110_lt_d113 : gcDist (37.35, -121.90) (37.3422, -121.8996)
    < gcDist (37.35, -121.90) (37.3333, -121.8907) := by
  have hlb := chordSq_lb_lat (37.35, -121.90) (37.3333, -121.8907) 0.0167
    (Or.inl (by norm_num)) (by norm_num) (by norm_num)
    (cos_radOfDeg_nonneg 37.35 (by norm_num) (by norm_num))
    (cos_radOfDeg_nonneg 37.3333 (by norm_num) (by norm_num))
  have h4 := chordSq_ub (37.35, -121.90) (37.3333, -121.8907) 0.0167 0.0093
    (Or.inl (by norm_num)) (Or.inr (by norm_num))
    (by norm_num) (by norm_num) (by norm_num) (by norm_num)
  apply gcDist_lt_of_chordSq
  · refine lt_of_le_of_lt cs110_ub (lt_of_lt_of_le ?_ hlb)
    push_cast
    norm_num
  · exact cs110_nonneg
  · refine le_trans h4 ?_
    push_cast
    norm_num

/-- The 95110 centroid is strictly closer to (37.35, -121.90) than the 95116
centroid. -/
theorem d110_lt_d116 : gcDist (37.35, -121.90) (37.3422, -121.8996)
    < gcDist (37.35, -121.90) (37.3496, -121.8569) := by
  have hcc : (0.605 : ℝ) ≤ Real.cos (radOfDeg 37.35) * Real.cos (radOfDeg 37.3496) := by
    have h1 := cos_radOfDeg_lb 37.35 (by norm_num) (by norm_num)
    have h2 := cos_radOfDeg_lb 37.3496 (by norm_num) (by norm_num)
    nlinarith
  have hlb := chordSq_lb_latlon (37.35, -121.90) (37.3496, -121.8569) 0.0004 0.0431
    (Or.inl (by norm_num)) (Or.inr (by norm_num))
    (by norm_num) (by norm_num) (by norm_num) (by norm_num) hcc
  have h4 := chordSq_ub (37.35, -121.90) (37.3496, -121.8569) 0.0004 0.0431
    (Or.inl (by norm_num)) (Or.inr (by norm_num))
    (by norm_num) (by norm_num) (by norm_num) (by norm_num)
  apply gcDist_lt_of_chordSq
  · refine lt_of_le_of_lt cs110_ub (lt_of_lt_of_le ?_ hlb)
    push_cast
    norm_num
  · exact cs110_nonneg
  · refine le_trans h4 ?_
    push_cast
    norm_num

/-- The 95110 centroid is strictly closer to (37.35, -121.90) than the 95117
centroid. -/
theorem d110_lt_d117 : gcDist (37.35, -121.90) (37.3422, -121.8996)
    < gcDist (37.35, -121.90) (37.3126, -121.9502) := by
  have hlb := chordSq_lb_lat (37.35, -121.90) (37.3126, -121.9502) 0.0374
    (Or.inl (by norm_num)) (by norm_num) (by norm_num)
    (cos_radOfDeg_nonneg 37.35 (by norm_num) (by norm_num))
    (cos_radOfDeg_nonneg 37.3126 (by norm_num) (by norm_num))
  have h4 := chordSq_ub (37.35, -121.90) (37.3126, -121.9502) 0.0374 0.0502
    (Or.inl (by norm_num)) (Or.inl (by norm_num))
    (by norm_num) (by norm_num) (by norm_num) (by norm_num)
  apply gcDist_lt_of_chordSq
  · refine lt_of_le_of_lt cs110_ub (lt_of_lt_of_le ?_ hlb)
    push_cast
    norm_num
  · exact cs110_nonneg
  · refine le_trans h4 ?_
    push_cast
    norm_num

/-- The 95110 centroid is strictly closer to (37.35, -121.90) than the 95118
centroid. -/
theorem d110_lt_d118 : gcDist (37.35, -121.90) (37.3422, -121.8996)
    < gcDist (37.35, -121.90) (37.2505, -121.8891) := by
  have hlb := chordSq_lb_lat (37.35, -121.90) (37.2505, -121.8891) 0.0995
    (Or.inl (by norm_num)) (by norm_num) (by norm_num)
    (cos_radOfDeg_nonneg 37.35 (by norm_num) (by norm_num))
    (cos_radOfDeg_nonneg 37.2505 (by norm_num) (by norm_num))
  have h4 := chordSq_ub (37.35, -121.90) (37.2505, -121.8891) 0.0995 0.0109
    (Or.inl (by norm_num)) (Or.inr (by norm_num))
    (by norm_num) (by norm_num) (by norm_num) (by norm_num)
  apply gcDist_lt_of_chordSq
  · refine lt_of_le_of_lt cs110_ub (lt_of_lt_of_le ?_ hlb)
    push_cast
    norm_num
  · exact cs110_nonneg
  · refine le_trans h4 ?_
    push_cast
    norm_num

/-- The 95110 centroid is strictly closer to (37.35, -121.90) than the 95120
centroid. -/
theorem d110_lt_d120 : gcDist (37.35, -121.90) (37.3422, -121.8996)
    < gcDist (37.35, -121.90) (37.2060, -121.8133) := by
  have hlb := chordSq_lb_lat (37.35, -121.90) (37.2060, -121.8133) 0.144
    (Or.inl (by norm_num)) (by norm_num) (by norm_num)
    (cos_radOfDeg_nonneg 37.35 (by norm_num) (by norm_num))
    (cos_radOfDeg_nonneg 37.2060 (by norm_num) (by norm_num))
  have h4 := chordSq_ub (37.35, -121.90) (37.2060, -121.8133) 0.144 0.0867
    (Or.inl (by norm_num)) (Or.inr (by norm_num))
    (by norm_num) (by norm_num) (by norm_num) (by norm_num)
  apply gcDist_lt_of_chordSq
  · refine lt_of_le_of_lt cs110_ub (lt_of_lt_of_le ?_ hlb)
    push_cast
    norm_num
  · exact cs110_nonneg
  · refine le_trans h4 ?_
    push_cast
    norm_num

/-- Evaluation of the fallback search at the claim's point: scanning the
seven-entry table keeps 95110, whose centroid is strictly closest. -/
theorem nearest_eval : get_nearest_zipcode gcDist 37.35 (-121.90) = some "95110" := by
  have h2 := not_lt.mpr (le_of_lt d110_lt_d112)
  have h3 := not_lt.mpr (le_of_lt d110_lt_d113)
  have h4 := not_lt.mpr (le_of_lt d110_lt_d116)
  have h5 := not_lt.mpr (le_of_lt d110_lt_d117)
  have h6 := not_lt.mpr (le_of_lt d110_lt_d118)
  have h7 := not_lt.mpr (le_of_lt d110_lt_d120)
  unfold get_nearest_zipcode nearestFold known_zipcode_coords
  simp only [List.foldl_cons, List.foldl_nil, if_neg h2, if_neg h3, if_neg h4,
    if_neg h5, if_neg h6, if_neg h7]
  rfl

/-- General specification of the nearest-zipcode fold for any distance
function: on a non-empty table it returns the entry at some index i whose
distance is minimal over the whole table and strictly below the distance of
every earlier entry, so distance ties keep the first-encountered entry. -/
theorem nearestFold_min {α : Type} [LinearOrder α] (d : ℚ × ℚ → ℚ × ℚ → α) (p : ℚ × ℚ) :
    ∀ table : List (String × ℚ × ℚ), table ≠ [] →
    ∃ i, ∃ hi : i < table.length,
      nearestFold d p table = some (d p (table.get ⟨i, hi⟩).2, (table.get ⟨i, hi⟩).1)
      ∧ (∀ j (hj : j < table.length), d p (table.get ⟨i, hi⟩).2 ≤ d p (table.get ⟨j, hj⟩).2)
      ∧ (∀ j (hj : j < table.length), j < i →
          d p (table.get ⟨i, hi⟩).2 < d p (table.get ⟨j, hj⟩).2) := by
  intro table
  induction table using List.reverseRecOn with
  | nil => intro h; exact absurd rfl h
  | append_singleton l x ih =>
    intro _
    rcases eq_or_ne l [] with hl | hl
    · subst hl
      refine ⟨0, by simp, ?_, ?_, ?_⟩
      · simp [nearestFold]
      · intro j hj
        have hj0 : j = 0 := by simp at hj; omega
        subst hj0
        exact le_refl _
      · intro j hj hji
        omega
    · obtain ⟨i, hi, heq, hmin, htie⟩ := ih hl
      have hlen : i < (l ++ [x]).length := by simp; omega
      have hgeti : (l ++ [x]).get ⟨i, hlen⟩ = l.get ⟨i, hi⟩ := by
        simp [List.getElem_append_left hi]
      have hfold : nearestFold d p (l ++ [x])
          = if d p x.2 < d p (l.get ⟨i, hi⟩).2 then some (d p x.2, x.1)
            else some (d p (l.get ⟨i, hi⟩).2, (l.get ⟨i, hi⟩).1) := by
        unfold nearestFold at heq ⊢
        rw [List.foldl_append, List.foldl_cons, List.foldl_nil, heq]
      by_cases hx : d p x.2 < d p (l.get ⟨i, hi⟩).2
      · have hlenx : l.length < (l ++ [x]).length := by simp
        have hgetx : (l ++ [x]).get ⟨l.length, hlenx⟩ = x := by simp
        refine ⟨l.length, hlenx, ?_, ?_, ?_⟩
        · rw [hfold, if_pos hx, hgetx]
        · intro j hj
          rw [hgetx]
          rcases Nat.lt_or_ge j l.length with hjl | hjl
          · have hg : (l ++ [x]).get ⟨j, hj⟩ = l.get ⟨j, hjl⟩ := by
              simp [List.getElem_append_left hjl]
            rw [hg]
            exact le_of_lt (lt_of_lt_of_le hx (hmin j hjl))
          · have hje : j = l.length := by simp at hj; omega
            subst hje
            have hg : (l ++ [x]).get ⟨l.length, hj⟩ = x := by simp
            rw [hg]
        · intro j hj hji
          rw [hgetx]
          have hjl : j < l.length := hji
          have hg : (l ++ [x]).get ⟨j, hj⟩ = l.get ⟨j, hjl⟩ := by
            simp [List.getElem_append_left hjl]
          rw [hg]
          exact lt_of_lt_of_le hx (hmin j hjl)
      · refine ⟨i, hlen, ?_, ?_, ?_⟩
        · rw [hfold, if_neg hx, hgeti]
        · intro j hj
          rw [hgeti]
          rcases Nat.lt_or_ge j l.length with hjl | hjl
          · have hg : (l ++ [x]).get ⟨j, hj⟩ = l.get ⟨j, hjl⟩ := by
              simp [List.getElem_append_left hjl]
            rw [hg]
            exact hmin j hjl
          · have hje : j = l.length := by simp at hj; omega
            subst hje
            have hg : (l ++ [x]).get ⟨l.length, hj⟩ = x := by simp
            rw [hg]
            exact not_lt.mp hx
        · intro j hj hji
          rw [hgeti]
          have hjl : j < l.length := lt_trans hji hi
          have hg : (l ++ [x]).get ⟨j, hj⟩ = l.get ⟨j, hjl⟩ := by
            simp [List.getElem_append_left hjl]
          rw [hg]
          exact htie j hjl hji

/-- Every zipcode in the fallback table is a non-empty string. -/
theorem table_ids_nonempty :
    ∀ i (hi : i < known_zipcode_coords.length),
      (known_zipcode_coords.get ⟨i, hi⟩).1 ≠ "" := by
  intro i hi
  have h7 : i < 7 := by simpa [known_zipcode_coords] using hi
  interval_cases i <;> simp [known_zipcode_coords] <;> decide

/-- The fallback table of the source is non-empty. -/
theorem table_ne_nil : known_zipcode_coords ≠ [] := by
  simp [known_zipcode_coords]

/-- C1 counterexample: with the network call forced to fail, the point
(37.35, -121.90) resolves to "95110", not "95112" as claimed: the 95110
centroid (37.3422, -121.8996) lies about 0.87 km from the point while the
95112 centroid (37.3535, -121.8865) lies about 1.26 km away. -/
theorem C1_point_resolves_95110_counterexample :
    get_zipcode_from_coordinates gcDist NetOutcome.failure 37.35 (-121.90) = some "95110"
    ∧ some "95110" ≠ some "95112" := by
  constructor
  · exact nearest_eval
  · simp

/-- C1 as amended: whenever the remote call fails (exception or missing
postal field), resolution returns the fallback-table entry of minimal
great-circle distance to the input point, with ties broken by
first-encountered order; in particular (37.35, -121.90) resolves to
"95110" (not "95112") when the network call fails. -/
theorem C1_nearest_fallback_amended :
    (∀ (net : NetOutcome) (lat lon : ℚ), remoteFailed net = true →
      ∃ i, ∃ hi : i < known_zipcode_coords.length,
        get_zipcode_from_coordinates gcDist net lat lon
          = some ((known_zipcode_coords.get ⟨i, hi⟩).1)
        ∧ (∀ j (hj : j < known_zipcode_coords.length),
            gcDist (lat, lon) (known_zipcode_coords.get ⟨i, hi⟩).2
              ≤ gcDist (lat, lon) (known_zipcode_coords.get ⟨j, hj⟩).2)
        ∧ (∀ j (hj : j < known_zipcode_coords.length), j < i →
            gcDist (lat, lon) (known_zipcode_coords.get ⟨i, hi⟩).2
              < gcDist (lat, lon) (known_zipcode_coords.get ⟨j, hj⟩).2))
    ∧ get_zipcode_from_coordinates gcDist NetOutcome.failure 37.35 (-121.90)
        = some "95110" := by
  constructor
  · intro net lat lon hfail
    obtain ⟨i, hi, heq, hmin, htie⟩ :=
      nearestFold_min gcDist (lat, lon) known_zipcode_coords table_ne_nil
    refine ⟨i, hi, ?_, hmin, htie⟩
    have hres : get_zipcode_from_coordinates gcDist net lat lon
        = get_nearest_zipcode gcDist lat lon := by
      cases net with
      | failure => rfl
      | success pc =>
        cases pc with
        | none => rfl
        | some s => simp [remoteFailed] at hfail
    rw [hres]
    unfold get_nearest_zipcode
    rw [heq]
    rfl
  · exact nearest_eval

/-- Witness for C1 as amended: the forced-failure outcome at the claim's
point satisfies the minimal-distance characterization. -/
theorem C1_nearest_fallback_amended_witness :
    ∃ i, ∃ hi : i < known_zipcode_coords.length,
      get_zipcode_from_coordinates gcDist NetOutcome.failure 37.35 (-121.90)
        = some ((known_zipcode_coords.get ⟨i, hi⟩).1)
      ∧ (∀ j (hj : j < known_zipcode_coords.length),
          gcDist (37.35, -121.90) (known_zipcode_coords.get ⟨i, hi⟩).2
            ≤ gcDist (37.35, -121.90) (known_zipcode_coords.get ⟨j, hj⟩).2)
      ∧ (∀ j (hj : j < known_zipcode_coords.length), j < i →
          gcDist (37.35, -121.90) (known_zipcode_coords.get ⟨i, hi⟩).2
            < gcDist (37.35, -121.90) (known_zipcode_coords.get ⟨j, hj⟩).2) :=
  C1_nearest_fallback_amended.1 NetOutcome.failure 37.35 (-121.90) rfl

/-- C3 counterexample: the claim that resolution always returns a non-empty
ZoneId is false as stated, because the source checks only the presence of
the postcode field, not its contents: a successful response whose postcode
field is the empty string is returned as-is. -/
theorem C3_empty_postcode_counterexample :
    get_zipcode_from_coordinates gcDist (NetOutcome.success (some "")) 37.35 (-121.90)
      = some "" := rfl

/-- C3 as amended: resolution is total (never raises, always returns some
zipcode, the fallback table being non-empty); on every failure mode the
result is a non-empty fallback-table zipcode, and on success with a postcode
field present that exact postcode is returned, so the result is non-empty
except in the degenerate case of a present-but-empty postcode field. -/
theorem C3_total_amended :
    ∀ (net : NetOutcome) (lat lon : ℚ),
      ∃ z, get_zipcode_from_coordinates gcDist net lat lon = some z
        ∧ (remoteFailed net = true → z ≠ "")
        ∧ (∀ pc, net = NetOutcome.success (some pc) → z = pc) := by
  intro net lat lon
  have hfb : ∃ i, ∃ hi : i < known_zipcode_coords.length,
      get_nearest_zipcode gcDist lat lon = some ((known_zipcode_coords.get ⟨i, hi⟩).1) := by
    obtain ⟨i, hi, heq, -, -⟩ :=
      nearestFold_min gcDist (lat, lon) known_zipcode_coords table_ne_nil
    refine ⟨i, hi, ?_⟩
    unfold get_nearest_zipcode
    rw [heq]
    rfl
  cases net with
  | failure =>
    obtain ⟨i, hi, heq⟩ := hfb
    refine ⟨(known_zipcode_coords.get ⟨i, hi⟩).1, heq, ?_, ?_⟩
    · intro _
      exact table_ids_nonempty i hi
    · intro pc h
      exact NetOutcome.noConfusion h
  | success pc =>
    cases pc with
    | none =>
      obtain ⟨i, hi, heq⟩ := hfb
      refine ⟨(known_zipcode_coords.get ⟨i, hi⟩).1, heq, ?_, ?_⟩
      · intro _
        exact table_ids_nonempty i hi
      · intro pc h
        injection h with h2
        exact absurd h2 (by simp)
    | some s =>
      refine ⟨s, rfl, ?_, ?_⟩
      · intro hfail
        simp [remoteFailed] at hfail
      · intro pc h
        injection h with h2
        injection h2 with h3

/-- Witness for C3 as amended: the forced-failure outcome at the claim's
point yields some zipcode. -/
theorem C3_total_amended_witness :
    ∃ z, get_zipcode_from_coordinates gcDist NetOutcome.failure 37.35 (-121.90) = some z
      ∧ (remoteFailed NetOutcome.failure = true → z ≠ "")
      ∧ (∀ pc, NetOutcome.failure = NetOutcome.success (some pc) → z = pc) :=
  C3_total_amended NetOutcome.failure 37.35 (-121.90)

/-- C9 counterexample: the claim that the remote call is bounded by an
explicit timeout of at most five seconds is false: requests.get is invoked
with no timeout argument at all. -/
theorem C9_timeout_counterexample :
    ¬ ∃ t : ℚ, geocode_request_timeout = some t ∧ t ≤ 5 := by
  simp [geocode_request_timeout]

/-- C9 as amended: the reverse-geocode request carries no explicit timeout
(the HTTP library default of no bound is used), and on a failed call the
fallback nearest-known-zone search executes synchronously in the same call,
its result being returned directly. -/
theorem C9_no_timeout_amended :
    geocode_request_timeout = none
    ∧ (∀ lat lon : ℚ,
        get_zipcode_from_coordinates gcDist NetOutcome.failure lat lon
          = get_nearest_zipcode gcDist lat lon) :=
  ⟨rfl, fun _ _ => rfl⟩

/-! ### Submission and deletion of records in 2_Manual_Input.py -/

/-- A row as persisted by the Submit Data handler: the readings dict (which
may be partial when produced by the image-parsing path) together with the
confirmed zipcode and the pd.Timestamp.now() value. -/
structure SubmittedRow where
  zipcode : String
  date : ℚ
  readings : List (Param × ℚ)
deriving DecidableEq, Repr

/-- Embedding of the guard of the Submit Data handler
(if zipcode and readings:): Python truthiness accepts exactly a non-empty
zipcode string together with a non-empty readings dict. -/
def submit_accepts (zipcode : String) (readings : List (Param × ℚ)) : Bool :=
  !zipcode.isEmpty && !readings.isEmpty

/-- Embedding of the Submit Data handler: when the guard passes, the new row
(readings plus zipcode and current timestamp) is appended to the existing
data and saved; otherwise nothing is persisted and an error is shown. -/
def submit (zipcode : String) (readings : List (Param × ℚ))
    (existing : List SubmittedRow) (now : ℚ) : List SubmittedRow :=
  if submit_accepts zipcode readings then existing ++ [⟨zipcode, now, readings⟩]
  else existing

/-- C2 counterexample: the claim that a candidate with any of the five
required parameters absent is rejected and never persisted is false: the
handler only checks dict truthiness, so the partial image-parsed mapping
containing just pH is accepted (Chlorine and the rest being absent) and is
appended to the store. -/
theorem C2_partial_persisted_counterexample :
    submit_accepts "95110" [(Param.pH, 7.2)] = true
    ∧ (∀ v, (Param.Chlorine, v) ∉ [(Param.pH, (7.2 : ℚ))])
    ∧ submit "95110" [(Param.pH, 7.2)] [] 0
        = [SubmittedRow.mk "95110" 0 [(Param.pH, 7.2)]] := by
  refine ⟨rfl, ?_, rfl⟩
  intro v h
  simp at h

/-- C2 as amended: the handler rejects exactly when the zipcode string is
empty or the readings mapping is empty (one combined error, with no distinct
MissingZone / IncompleteReadings conditions); any accepted candidate —
including a partial non-empty mapping from the image flow — is persisted by
appending a row stamped with the current timestamp, and a rejected candidate
leaves the store unchanged. -/
theorem C2_submit_amended :
    (∀ (z : String) (rs : List (Param × ℚ)),
      submit_accepts z rs = true ↔ z ≠ "" ∧ rs ≠ [])
    ∧ (∀ (z : String) (rs : List (Param × ℚ)) (existing : List SubmittedRow) (now : ℚ),
        submit_accepts z rs = true →
          submit z rs existing now = existing ++ [⟨z, now, rs⟩])
    ∧ (∀ (z : String) (rs : List (Param × ℚ)) (existing : List SubmittedRow) (now : ℚ),
        submit_accepts z rs = false → submit z rs existing now = existing) := by
  refine ⟨?_, ?_, ?_⟩
  · intro z rs
    have hz : z.isEmpty = false ↔ ¬z = "" := by
      rw [← String.isEmpty_iff]
      simp
    simp [submit_accepts, String.isEmpty_iff, hz]
  · intro z rs existing now h
    simp [submit, h]
  · intro z rs existing now h
    simp [submit, h]

/-- Witness for C2 as amended: a complete submission is appended with its
timestamp, and an empty-zipcode submission is rejected. -/
theorem C2_submit_amended_witness :
    submit "95110" [(Param.pH, 7), (Param.Chlorine, 1), (Param.Hardness, 50),
        (Param.Nitrates, 5), (Param.Lead, 3)] [] 42
      = [] ++ [⟨"95110", 42, [(Param.pH, 7), (Param.Chlorine, 1), (Param.Hardness, 50),
        (Param.Nitrates, 5), (Param.Lead, 3)]⟩]
    ∧ submit "" [(Param.pH, 7)] [] 42 = [] :=
  ⟨C2_submit_amended.2.1 "95110" [(Param.pH, 7), (Param.Chlorine, 1), (Param.Hardness, 50),
      (Param.Nitrates, 5), (Param.Lead, 3)] [] 42 rfl,
   C2_submit_amended.2.2 "" [(Param.pH, 7)] [] 42 rfl⟩

/-- Embedding of the Delete handler of 2_Manual_Input.py:
data.drop(i).reset_index(drop=True) on a freshly loaded frame whose index is
positional removes exactly the row at position i and renumbers the rest. -/
def delete_entry (data : List Row) (i : ℕ) : List Row :=
  data.eraseIdx i

/-- Element-level specification of positional erasure, proved by
induction. -/
theorem eraseIdx_spec {α : Type} :
    ∀ (l : List α) (i : ℕ), i < l.length →
      (l.eraseIdx i).length = l.length - 1
      ∧ (∀ j, j < i → (l.eraseIdx i).get? j = l.get? j)
      ∧ (∀ j, i ≤ j → (l.eraseIdx i).get? j = l.get? (j + 1)) := by
  intro l
  induction l with
  | nil =>
    intro i hi
    simp at hi
  | cons x xs ih =>
    intro i hi
    cases i with
    | zero =>
      refine ⟨by simp, ?_, ?_⟩
      · intro j hj
        omega
      · intro j _
        simp [List.eraseIdx]
    | succ k =>
      have hk : k < xs.length := by simpa using hi
      obtain ⟨h1, h2, h3⟩ := ih k hk
      refine ⟨?_, ?_, ?_⟩
      · simp only [List.eraseIdx_cons_succ, List.length_cons, h1]
        omega
      · intro j hj
        cases j with
        | zero => simp [List.eraseIdx]
        | succ j' =>
          have hj' : j' < k := by omega
          simp only [List.eraseIdx_cons_succ, List.get?_cons_succ]
          exact h2 j' hj'
      · intro j hj
        cases j with
        | zero => omega
        | succ j' =>
          have hj' : k ≤ j' := by omega
          simp only [List.eraseIdx_cons_succ, List.get?_cons_succ]
          exact h3 j' hj'

/-- C10: deleting the record at a valid index i removes exactly that record:
the collection shrinks by one, every record before i is unchanged, and every
record from i on is the record that followed it, so the surviving records
keep their relative order and none of their fields change. -/
theorem C10_delete_frame :
    ∀ (data : List Row) (i : ℕ), i < data.length →
      (delete_entry data i).length = data.length - 1
      ∧ (∀ j, j < i → (delete_entry data i).get? j = data.get? j)
      ∧ (∀ j, i ≤ j → (delete_entry data i).get? j = data.get? (j + 1)) := by
  intro data i hi
  exact eraseIdx_spec data i hi

/-- Witness for C10: deleting index 0 from a concrete two-row store keeps
exactly the other row in place. -/
theorem C10_delete_frame_witness :
    (delete_entry [Row.mk "95110" 0 7 1 50 5 3, Row.mk "95112" 1 8 2 60 6 4] 0).length
        = 2 - 1
    ∧ (delete_entry [Row.mk "95110" 0 7 1 50 5 3, Row.mk "95112" 1 8 2 60 6 4] 0).get? 0
        = [Row.mk "95110" 0 7 1 50 5 3, Row.mk "95112" 1 8 2 60 6 4].get? (0 + 1) :=
  ⟨(C10_delete_frame [Row.mk "95110" 0 7 1 50 5 3, Row.mk "95112" 1 8 2 60 6 4] 0
      (by norm_num)).1,
   (C10_delete_frame [Row.mk "95110" 0 7 1 50 5 3, Row.mk "95112" 1 8 2 60 6 4] 0
      (by norm_num)).2.2 0 (le_refl 0)⟩
